import Mathlib

/-!
# Verification of the NEURA plan-then-execute workflow core

Shallow embedding of the workflow state machine and step-dependency
executor of the `neura` repository:

* `should_continue`        — the Workflow Router (`neura/core/graph.py`)
* `PlannerAgent.process`   — task planning (`neura/agents/planner.py`)
* `ExecutorAgent.process`  — step execution (`neura/agents/executor.py`)
* tool registration and the Graph Driver's tool wiring.

Python dictionaries with string keys are modelled as association lists with
insert-in-place semantics (assignment to an existing key keeps its position
and overwrites the value, a fresh key is appended at the end, matching
CPython insertion order).  JSON values produced by `json.loads` are modelled
by the inductive `Json`; `json_loads` is a fuel-based JSON parser covering
the object/array/string/number/bool/null fragment the program exchanges.
The language-model boundary (`llm.invoke`) is an explicit oracle parameter,
as the specification treats it as an opaque `propose` function.  Exceptions
are modelled with `Except`/explicit error results; the `_initialized`
handshake of `BaseAgent` only toggles a private flag with no observable
effect and is omitted.
-/

set_option autoImplicit false
set_option maxRecDepth 16384

namespace Neura

universe u v

/-! ## Python-style dictionaries as association lists -/

/-- Lookup in a Python-style dict modelled as an association list. -/
def dlookup {κ : Type u} {α : Type v} [DecidableEq κ] (m : List (κ × α)) (k : κ) : Option α :=
  match m with
  | [] => none
  | (k', v) :: rest => if k' = k then some v else dlookup rest k

/-- `m[k] = v` on a Python dict: overwrite in place if the key exists,
otherwise append the new binding at the end (CPython insertion order). -/
def dinsert {κ : Type u} {α : Type v} [DecidableEq κ] (m : List (κ × α)) (k : κ) (v : α) :
    List (κ × α) :=
  match m with
  | [] => [(k, v)]
  | (k', v') :: rest => if k' = k then (k', v) :: rest else (k', v') :: dinsert rest k v

/-! ## JSON values (the image of `json.loads`) -/

/-- A JSON value as produced by Python's `json.loads`.  Numbers are modelled
as integers (the program never manipulates fractional literals). -/
inductive Json : Type where
  | null : Json
  | bool : Bool → Json
  | num : Int → Json
  | str : String → Json
  | arr : List Json → Json
  | obj : List (String × Json) → Json
deriving Repr, Inhabited

mutual

def Json.decEq : (a b : Json) → Decidable (a = b)
  | .null, .null => isTrue rfl
  | .null, .bool _ => isFalse Json.noConfusion
  | .null, .num _ => isFalse Json.noConfusion
  | .null, .str _ => isFalse Json.noConfusion
  | .null, .arr _ => isFalse Json.noConfusion
  | .null, .obj _ => isFalse Json.noConfusion
  | .bool _, .null => isFalse Json.noConfusion
  | .bool a, .bool b =>
    if h : a = b then isTrue (h ▸ rfl) else isFalse fun he => h (Json.bool.inj he)
  | .bool _, .num _ => isFalse Json.noConfusion
  | .bool _, .str _ => isFalse Json.noConfusion
  | .bool _, .arr _ => isFalse Json.noConfusion
  | .bool _, .obj _ => isFalse Json.noConfusion
  | .num _, .null => isFalse Json.noConfusion
  | .num _, .bool _ => isFalse Json.noConfusion
  | .num a, .num b =>
    if h : a = b then isTrue (h ▸ rfl) else isFalse fun he => h (Json.num.inj he)
  | .num _, .str _ => isFalse Json.noConfusion
  | .num _, .arr _ => isFalse Json.noConfusion
  | .num _, .obj _ => isFalse Json.noConfusion
  | .str _, .null => isFalse Json.noConfusion
  | .str _, .bool _ => isFalse Json.noConfusion
  | .str _, .num _ => isFalse Json.noConfusion
  | .str a, .str b =>
    if h : a = b then isTrue (h ▸ rfl) else isFalse fun he => h (Json.str.inj he)
  | .str _, .arr _ => isFalse Json.noConfusion
  | .str _, .obj _ => isFalse Json.noConfusion
  | .arr _, .null => isFalse Json.noConfusion
  | .arr _, .bool _ => isFalse Json.noConfusion
  | .arr _, .num _ => isFalse Json.noConfusion
  | .arr _, .str _ => isFalse Json.noConfusion
  | .arr xs, .arr ys =>
    match Json.decEqList xs ys with
    | isTrue h => isTrue (h ▸ rfl)
    | isFalse h => isFalse fun he => h (Json.arr.inj he)
  | .arr _, .obj _ => isFalse Json.noConfusion
  | .obj _, .null => isFalse Json.noConfusion
  | .obj _, .bool _ => isFalse Json.noConfusion
  | .obj _, .num _ => isFalse Json.noConfusion
  | .obj _, .str _ => isFalse Json.noConfusion
  | .obj _, .arr _ => isFalse Json.noConfusion
  | .obj xs, .obj ys =>
    match Json.decEqObj xs ys with
    | isTrue h => isTrue (h ▸ rfl)
    | isFalse h => isFalse fun he => h (Json.obj.inj he)

def Json.decEqList : (a b : List Json) → Decidable (a = b)
  | [], [] => isTrue rfl
  | [], _ :: _ => isFalse List.noConfusion
  | _ :: _, [] => isFalse List.noConfusion
  | x :: xs, y :: ys =>
    match Json.decEq x y with
    | isFalse h => isFalse fun he => h (List.cons.inj he).1
    | isTrue h1 =>
      match Json.decEqList xs ys with
      | isTrue h2 => isTrue (h1 ▸ h2 ▸ rfl)
      | isFalse h => isFalse fun he => h (List.cons.inj he).2

def Json.decEqObj : (a b : List (String × Json)) → Decidable (a = b)
  | [], [] => isTrue rfl
  | [], _ :: _ => isFalse List.noConfusion
  | _ :: _, [] => isFalse List.noConfusion
  | (k, v) :: xs, (k', v') :: ys =>
    if hk : k = k' then
      match Json.decEq v v' with
      | isFalse h => isFalse fun he => h (congrArg Prod.snd (List.cons.inj he).1)
      | isTrue h1 =>
        match Json.decEqObj xs ys with
        | isTrue h2 => isTrue (hk ▸ h1 ▸ h2 ▸ rfl)
        | isFalse h => isFalse fun he => h (List.cons.inj he).2
    else isFalse fun he => hk (congrArg Prod.fst (List.cons.inj he).1)

end

instance : DecidableEq Json := Json.decEq

instance {ε : Type u} {α : Type v} [DecidableEq ε] [DecidableEq α] :
    DecidableEq (Except ε α) := fun a b =>
  match a, b with
  | .ok x, .ok y =>
    if h : x = y then isTrue (h ▸ rfl) else isFalse fun he => h (Except.ok.inj he)
  | .ok _, .error _ => isFalse Except.noConfusion
  | .error _, .ok _ => isFalse Except.noConfusion
  | .error e, .error e' =>
    if h : e = e' then isTrue (h ▸ rfl) else isFalse fun he => h (Except.error.inj he)

/-- Python `str()` of a value, as it appears interpolated into f-strings.
Containers are abbreviated: only scalar values reach the f-strings on the
paths the program exercises. -/
def Json.display : Json → String
  | .null => "None"
  | .bool true => "True"
  | .bool false => "False"
  | .num n => toString n
  | .str s => s
  | .arr _ => "[...]"
  | .obj _ => "\x7b...\x7d"

/-- Minimal JSON string escaping, as performed by `json.dumps`. -/
def escapeChar (c : Char) : String :=
  if c = '\\' then "\\\\"
  else if c = '"' then "\\\""
  else if c = '\n' then "\\n"
  else if c = '\t' then "\\t"
  else String.mk [c]

def escapeStr (s : String) : String :=
  String.join (s.toList.map escapeChar)

mutual

/-- `json.dumps` (compact separators; the `indent=2` pretty-printing used for
container values inside chat messages is abstracted to this compact form —
identical on the scalar results the claims exercise). -/
def Json.dump : Json → String
  | .null => "null"
  | .bool true => "true"
  | .bool false => "false"
  | .num n => toString n
  | .str s => "\"" ++ escapeStr s ++ "\""
  | .arr xs => "[" ++ Json.dumpList xs ++ "]"
  | .obj kvs => "\x7b" ++ Json.dumpObj kvs ++ "\x7d"

def Json.dumpList : List Json → String
  | [] => ""
  | [x] => Json.dump x
  | x :: y :: xs => Json.dump x ++ ", " ++ Json.dumpList (y :: xs)

def Json.dumpObj : List (String × Json) → String
  | [] => ""
  | [(k, v)] => "\"" ++ escapeStr k ++ "\": " ++ Json.dump v
  | (k, v) :: kv :: kvs =>
    "\"" ++ escapeStr k ++ "\": " ++ Json.dump v ++ ", " ++ Json.dumpObj (kv :: kvs)

end

/-- Python subscript `j[k]`: a `KeyError` when the key is absent, a
`TypeError` when the value is not a dict. -/
def jget (j : Json) (k : String) : Except String Json :=
  match j with
  | .obj kvs =>
    match dlookup kvs k with
    | some v => .ok v
    | none => .error ("KeyError: " ++ k)
  | _ => .error ("TypeError: value is not subscriptable by " ++ k)

/-- Python `j.get(k, d)`: only dicts have `.get`; any other value raises an
`AttributeError`. -/
def jgetD (j : Json) (k : String) (d : Json) : Except String Json :=
  match j with
  | .obj kvs => .ok ((dlookup kvs k).getD d)
  | _ => .error "AttributeError: get"

/-- Python iteration `for x in j`: arrays yield their elements, strings yield
one-character strings, dicts yield their keys; other values raise `TypeError`. -/
def iterElems : Json → Except String (List Json)
  | .arr xs => .ok xs
  | .str s => .ok (s.toList.map fun c => .str (String.mk [c]))
  | .obj kvs => .ok (kvs.map fun kv => .str kv.1)
  | _ => .error "TypeError: not iterable"

/-- Whether a value is hashable in Python (usable as a dict key). -/
def Json.hashable : Json → Bool
  | .arr _ => false
  | .obj _ => false
  | _ => true

/-! ## `json.loads`: a fuel-based JSON parser -/

def isWs (c : Char) : Bool :=
  c = ' ' || c = '\n' || c = '\t' || c = '\r'

def skipWs : List Char → List Char
  | [] => []
  | c :: cs => if isWs c then skipWs cs else c :: cs

/-- Parse the body of a JSON string literal (after the opening quote),
handling the `\"`, `\\`, `\n`, `\t` escapes. -/
def parseStringBody : List Char → Except String (String × List Char)
  | [] => .error "Unterminated string"
  | c :: cs =>
    if c = '"' then .ok ("", cs)
    else if c = '\\' then
      match cs with
      | [] => .error "Unterminated string escape"
      | e :: cs' =>
        let ec : Char := if e = 'n' then '\n' else if e = 't' then '\t' else e
        match parseStringBody cs' with
        | .ok (s, rest) => .ok (String.mk [ec] ++ s, rest)
        | .error m => .error m
    else
      match parseStringBody cs with
      | .ok (s, rest) => .ok (String.mk [c] ++ s, rest)
      | .error m => .error m

def parseDigits : List Char → Nat → Nat × List Char
  | [], acc => (acc, [])
  | c :: cs, acc =>
    if c.isDigit then parseDigits cs (10 * acc + (c.toNat - 48)) else (acc, c :: cs)

def matchLiteral : List Char → List Char → Option (List Char)
  | [], rest => some rest
  | _ :: _, [] => none
  | p :: ps, c :: cs => if c = p then matchLiteral ps cs else none

/-- Collapse duplicate keys last-wins, as `json.loads` does when it builds a
Python dict from parsed members. -/
def dictOfPairs (kvs : List (String × Json)) : List (String × Json) :=
  kvs.foldl (fun m kv => dinsert m kv.1 kv.2) []

mutual

def parseVal : Nat → List Char → Except String (Json × List Char)
  | 0, _ => .error "Fuel exhausted"
  | fuel + 1, input =>
    match skipWs input with
    | [] => .error "Expecting value"
    | c :: cs =>
      if c = '"' then
        match parseStringBody cs with
        | .ok (s, rest) => .ok (.str s, rest)
        | .error m => .error m
      else if c = '\x7b' then
        match parseObjItems fuel cs true with
        | .ok (kvs, rest) => .ok (.obj (dictOfPairs kvs), rest)
        | .error m => .error m
      else if c = '[' then
        match parseArrItems fuel cs true with
        | .ok (vs, rest) => .ok (.arr vs, rest)
        | .error m => .error m
      else if c = '-' then
        match cs with
        | [] => .error "Expecting value"
        | d :: ds =>
          if d.isDigit then
            let nr := parseDigits ds (d.toNat - 48)
            .ok (.num (-(nr.1 : Int)), nr.2)
          else .error "Expecting value"
      else if c.isDigit then
        let nr := parseDigits cs (c.toNat - 48)
        .ok (.num (nr.1 : Int), nr.2)
      else
        match matchLiteral ['t', 'r', 'u', 'e'] (c :: cs) with
        | some rest => .ok (.bool true, rest)
        | none =>
          match matchLiteral ['f', 'a', 'l', 's', 'e'] (c :: cs) with
          | some rest => .ok (.bool false, rest)
          | none =>
            match matchLiteral ['n', 'u', 'l', 'l'] (c :: cs) with
            | some rest => .ok (.null, rest)
            | none => .error "Expecting value"

def parseArrItems : Nat → List Char → Bool → Except String (List Json × List Char)
  | 0, _, _ => .error "Fuel exhausted"
  | fuel + 1, input, first =>
    match skipWs input with
    | [] => .error "Expecting value"
    | c :: cs =>
      if c = ']' then
        if first then .ok ([], cs) else .error "Expecting value"
      else
        match parseVal fuel (c :: cs) with
        | .error m => .error m
        | .ok (v, rest) =>
          match skipWs rest with
          | ',' :: rest' =>
            match parseArrItems fuel rest' false with
            | .ok (vs, r) => .ok (v :: vs, r)
            | .error m => .error m
          | ']' :: rest' => .ok ([v], rest')
          | _ => .error "Expecting delimiter"

def parseObjItems : Nat → List Char → Bool → Except String (List (String × Json) × List Char)
  | 0, _, _ => .error "Fuel exhausted"
  | fuel + 1, input, first =>
    match skipWs input with
    | [] => .error "Expecting property name"
    | c :: cs =>
      if c = '\x7d' then
        if first then .ok ([], cs) else .error "Expecting property name"
      else if c = '"' then
        match parseStringBody cs with
        | .error m => .error m
        | .ok (k, rest) =>
          match skipWs rest with
          | ':' :: rest' =>
            match parseVal fuel rest' with
            | .error m => .error m
            | .ok (v, rest2) =>
              match skipWs rest2 with
              | ',' :: rest3 =>
                match parseObjItems fuel rest3 false with
                | .ok (kvs, r) => .ok ((k, v) :: kvs, r)
                | .error m => .error m
              | '\x7d' :: rest3 => .ok ([(k, v)], rest3)
              | _ => .error "Expecting delimiter"
          | _ => .error "Expecting colon"
      else .error "Expecting property name"

end

/-- `json.loads`: parse a complete JSON document, requiring only trailing
whitespace after the value. -/
def json_loads (s : String) : Except String Json :=
  match parseVal (2 * s.length + 8) s.toList with
  | .error m => .error m
  | .ok (j, rest) => if skipWs rest = [] then .ok j else .error "Extra data"

/-! ## Data model (`neura/agents/base.py`, `neura/core/graph.py`) -/

/-- A chat message, a dict `{role: ..., content: ...}` in the source. -/
structure Message where
  role : String
  content : String
deriving Repr, DecidableEq

/-- The run-scoped context.  The recognized keys `plan` and
`execution_results` are modelled as explicit optional fields (their presence
or absence is all the Router reads); every other key lives in `other`. -/
structure Ctx where
  plan : Option String
  execution_results : Option (List (Json × Json))
  other : List (String × Json)
deriving Repr, DecidableEq

/-- `AgentState` from `neura/agents/base.py`. -/
structure AgentState where
  messages : List Message
  memory : List (String × Json)
  context : Ctx
deriving Repr, DecidableEq

/-- A named capability.  Invocation `tool(**parameters)` receives the keyword
mapping and may raise (modelled as `Except`). -/
structure Tool where
  name : String
  description : String
  run : List (String × Json) → Except String Json

/-- The external proposal function (the `llm.invoke` boundary of the
Planner): receives the tool listing and the task text, returns the raw
response content, or fails (provider/network failure). -/
abbrev ProposeFn : Type := String → String → Except String String

/-- The per-step proposal function (the `llm.invoke` boundary of the
Executor's `_execute_step`): receives the data interpolated into the
execution prompt — registered tools, cached step results, the step, and the
run context — and returns the raw response content, or fails. -/
abbrev DecideFn : Type :=
  List (String × Tool) → List (Json × Json) → Json → Ctx → Except String String

/-! ## Workflow Router (`should_continue`, `neura/core/graph.py`) -/

/-- The next node selected by the Router; `terminal` is langgraph's `END`. -/
inductive NextNode : Type where
  | planner : NextNode
  | executor : NextNode
  | terminal : NextNode
deriving Repr, DecidableEq

/-- `should_continue` from `neura/core/graph.py`: checks `"plan" in context`
first, then `"execution_results" in context`, else starts with planning. -/
def should_continue (context : Ctx) : Bool × NextNode :=
  if context.plan.isSome then (true, .executor)
  else if context.execution_results.isSome then (false, .terminal)
  else (true, .planner)

/-! ## Planner (`neura/agents/planner.py`) -/

/-- The Planner's toolkit is a plain list (`self._tools: List[Tool]`);
`add_tool` appends.  The `llm` member is the `ProposeFn` oracle. -/
structure PlannerAgent where
  tools : List Tool

def PlannerAgent.add_tool (p : PlannerAgent) (tool : Tool) : PlannerAgent :=
  { p with tools := p.tools ++ [tool] }

/-- The lines `- name: description` interpolated into the planning prompt
(`_create_planning_prompt`). -/
def planner_tool_lines (tools : List Tool) : List String :=
  tools.map fun tool => "- " ++ tool.name ++ ": " ++ tool.description

/-- The `{tools}` block of the planning prompt. -/
def planner_tools_listing (tools : List Tool) : String :=
  String.intercalate "\n" (planner_tool_lines tools)

/-- `PlannerAgent.process`: no-op on empty messages; otherwise the last
message's content is the task, the proposal's raw content is stored verbatim
as `context["plan"]`, and one assistant message is appended.  The proposal
call is not guarded, so its failure propagates (`Except.error`). -/
def PlannerAgent.process (propose : ProposeFn) (p : PlannerAgent)
    (state : AgentState) : Except String AgentState :=
  match state.messages.getLast? with
  | none => .ok state
  | some last_message =>
    let task := last_message.content
    match propose (planner_tools_listing p.tools) task with
    | .error e => .error e
    | .ok content =>
      .ok { state with
            context := { state.context with plan := some content },
            messages := state.messages ++
              [⟨"assistant", "Created execution plan:\n" ++ content⟩] }

/-! ## Executor (`neura/agents/executor.py`) -/

/-- The Executor's registry `self._tools: Dict[str, Tool]` and step-result
cache `self._step_results: Dict[str, Any]`, both created at construction. -/
structure ExecutorAgent where
  tools : List (String × Tool)
  step_results : List (Json × Json)

/-- `ExecutorAgent.__init__` (lines 38–39): both dicts start empty. -/
def ExecutorAgent.mk_fresh : ExecutorAgent := ⟨[], []⟩

def ExecutorAgent.add_tool (ex : ExecutorAgent) (tool : Tool) : ExecutorAgent :=
  { ex with tools := dinsert ex.tools tool.name tool }

/-- `ExecutorAgent._execute_step`: asks the proposal oracle for a structured
decision, parses it as JSON, resolves the decision's `"tool"` field in the
registry, and invokes it with the decision's `"parameters"`; a tool exception
is wrapped into a `RuntimeError` naming `step["id"]`. -/
def ExecutorAgent.execute_step (decider : DecideFn) (ex : ExecutorAgent)
    (step : Json) (context : Ctx) : Except String Json :=
  match decider ex.tools ex.step_results step context with
  | .error e => .error e
  | .ok content =>
    match json_loads content with
    | .error e => .error e
    | .ok execution_plan =>
      match jget execution_plan "tool" with
      | .error e => .error e
      | .ok toolName =>
        let toolOpt : Option Tool :=
          match toolName with
          | .str s => dlookup ex.tools s
          | _ => none
        match toolOpt with
        | none => .error ("Tool " ++ toolName.display ++ " not found")
        | some tool =>
          let attempt : Except String Json :=
            match jget execution_plan "parameters" with
            | .error e => .error e
            | .ok (.obj kvs) => tool.run kvs
            | .ok _ => .error "TypeError: argument after ** must be a mapping"
          match attempt with
          | .ok result => .ok result
          | .error e =>
            .error ("Error executing step " ++
              (match jget step "id" with
               | .ok v => v.display
               | .error _ => "") ++ ": " ++ e)

/-- The message appended after a successful step (f-string at line 160). -/
def executedStepMsg (step_id result : Json) : Message :=
  ⟨"assistant", "Executed step " ++ step_id.display ++ ":\n" ++ Json.dump result⟩

/-- The single error message appended by the `except` clause of `process`. -/
def execErrorMsg (e : String) : Message :=
  ⟨"assistant", "Error during execution: " ++ e⟩

/-- The dependency check `if dep not in self._step_results` (lines 151–153);
returns the error text of the first unsatisfied dependency. -/
def checkDeps (cache : List (Json × Json)) : List Json → Option String
  | [] => none
  | dep :: rest =>
    if dep.hashable then
      if (dlookup cache dep).isSome then checkDeps cache rest
      else some ("Dependency " ++ dep.display ++ " not satisfied")
    else some "TypeError: unhashable dependency"

/-- Outcome of the `for step in steps` loop: the cache and the messages
appended so far survive an abort (`self._step_results` and `state.messages`
are mutated in place), `err` carries the first raised exception if any. -/
structure LoopResult where
  cache : List (Json × Json)
  msgs : List Message
  err : Option String
deriving Repr, DecidableEq

/-- The `for step in steps` loop of `ExecutorAgent.process` (lines 146–163).
Each iteration reads `step["id"]`, checks `step.get("dependencies", [])`
against the cache, runs `_execute_step`, stores the result in the cache and
appends one message; the first exception stops the loop. -/
def execLoop (decider : DecideFn) (tools : List (String × Tool)) (context : Ctx) :
    List (Json × Json) → List Message → List Json → LoopResult
  | cache, msgs, [] => ⟨cache, msgs, none⟩
  | cache, msgs, step :: rest =>
    match jget step "id" with
    | .error e => ⟨cache, msgs, some e⟩
    | .ok step_id =>
      match jgetD step "dependencies" (.arr []) with
      | .error e => ⟨cache, msgs, some e⟩
      | .ok depsJ =>
        match iterElems depsJ with
        | .error e => ⟨cache, msgs, some e⟩
        | .ok deps =>
          match checkDeps cache deps with
          | some e => ⟨cache, msgs, some e⟩
          | none =>
            match ExecutorAgent.execute_step decider ⟨tools, cache⟩ step context with
            | .error e => ⟨cache, msgs, some e⟩
            | .ok result =>
              if step_id.hashable then
                execLoop decider tools context (dinsert cache step_id result)
                  (msgs ++ [executedStepMsg step_id result]) rest
              else ⟨cache, msgs, some "TypeError: unhashable step id"⟩

/-- `ExecutorAgent.process` (lines 124–174).  A falsy `plan` (absent key or
empty string) is a no-op.  Otherwise the plan text is parsed, and the step
loop runs inside `try`; `context["execution_results"]` is assigned *after*
the loop, still inside `try`, so it is reached only when no exception was
raised.  The `except` clause appends a single assistant error message.
`process` always returns; cache mutations made before an abort persist. -/
def ExecutorAgent.process (decider : DecideFn) (ex : ExecutorAgent)
    (state : AgentState) : ExecutorAgent × AgentState :=
  match state.context.plan with
  | none => (ex, state)
  | some plan =>
    if plan = "" then (ex, state)
    else
      match json_loads plan with
      | .error e =>
        (ex, { state with messages := state.messages ++ [execErrorMsg e] })
      | .ok plan_data =>
        match jgetD plan_data "steps" (.arr []) with
        | .error e => (ex, { state with messages := state.messages ++ [execErrorMsg e] })
        | .ok stepsJ =>
          match iterElems stepsJ with
          | .error e => (ex, { state with messages := state.messages ++ [execErrorMsg e] })
          | .ok steps =>
            let r := execLoop decider ex.tools state.context ex.step_results [] steps
            match r.err with
            | some e =>
              ({ ex with step_results := r.cache },
               { state with messages := state.messages ++ r.msgs ++ [execErrorMsg e] })
            | none =>
              ({ ex with step_results := r.cache },
               { state with
                 messages := state.messages ++ r.msgs,
                 context := { state.context with execution_results := some r.cache } })

/-! ## Graph Driver tool wiring (`create_agent_graph_with_tools`) -/

/-- The tool wiring of `create_agent_graph_with_tools` (lines 136–139):
every tool is added to both agents; graph compilation itself is the external
langgraph collaborator and carries no further logic. -/
def create_agent_graph_with_tools (planner : PlannerAgent) (executor : ExecutorAgent)
    (tools : List Tool) : PlannerAgent × ExecutorAgent :=
  tools.foldl (fun pe tool => (pe.1.add_tool tool, pe.2.add_tool tool)) (planner, executor)

/-! ## Concrete fixtures used to exercise the model -/

/-- A deterministic capability: echoes `result-<step>` for the `step`
parameter it is invoked with. -/
def demoTool : Tool :=
  ⟨"search", "demo search capability", fun kvs =>
    match dlookup kvs "step" with
    | some (.str s) => .ok (.str ("result-" ++ s))
    | _ => .error "missing step parameter"⟩

/-- A second capability registered under the same name as `demoTool`,
used to observe last-wins registration. -/
def demoTool2 : Tool :=
  ⟨"search", "replacement search capability", fun _ => .ok (.str "result-two")⟩

/-- A capability under a different name, used for the step-tool/decision-tool
divergence scenario. -/
def demoToolY : Tool :=
  ⟨"y", "capability named y", fun _ => .ok (.str "result-y")⟩

/-- A per-step proposal oracle that always confirms the `search` tool and
passes the step id as the single parameter. -/
def demoOracle : DecideFn := fun _ _ step _ =>
  match jget step "id" with
  | .ok sid =>
    .ok (Json.dump (.obj [("tool", .str "search"), ("parameters", .obj [("step", sid)])]))
  | .error e => .error e

/-- A per-step proposal oracle whose decision names the tool `y`,
regardless of the step's own `tool` field. -/
def demoOracleY : DecideFn := fun _ _ _ _ =>
  .ok (Json.dump (.obj [("tool", .str "y"), ("parameters", .obj [])]))

/-- A step object of the shape the planning prompt requests. -/
def mkStep (sid tool : String) (deps : List String) : Json :=
  .obj [("id", .str sid), ("description", .str ("do " ++ sid)), ("tool", .str tool),
        ("dependencies", .arr (deps.map Json.str)), ("expected_output", .str "out")]

/-- A plan object `{steps: [...]}`. -/
def planJson (steps : List Json) : Json := .obj [("steps", .arr steps)]

/-- A fresh Executor holding only `demoTool`. -/
def demoExecutor : ExecutorAgent := ExecutorAgent.mk_fresh.add_tool demoTool

/-- An input state carrying one user message and the given plan text. -/
def baseState (plan : Option String) : AgentState :=
  ⟨[⟨"user", "do the task"⟩], [], ⟨plan, none, []⟩⟩

/-- Steps `[s1 (no deps), s2 (deps = {s1})]`. -/
def goodSteps : List Json := [mkStep "s1" "search" [], mkStep "s2" "search" ["s1"]]

/-- Serialized plan `[s1 (no deps), s2 (deps = {s1})]`. -/
def goodPlan : String := Json.dump (planJson goodSteps)

/-- Steps `[s1 (no deps), s2 (dep on an id absent from the cache)]`. -/
def badDepSteps : List Json := [mkStep "s1" "search" [], mkStep "s2" "search" ["missing"]]

/-- Serialized plan `[s1 (no deps), s2 (dep on an id absent from the cache)]`. -/
def badDepPlan : String := Json.dump (planJson badDepSteps)

/-- Serialized plan whose only step names the unregistered tool `x` in its
`tool` field. -/
def stepToolXPlan : String := Json.dump (planJson [mkStep "s1" "x" []])

/-- Serialized second-run plan whose step `t1` depends on the first run's
step id `s1`. -/
def stalePlan : String := Json.dump (planJson [mkStep "t1" "search" ["s1"]])

/-- A fresh Executor holding only `demoToolY` (so the name `x` is not
registered). -/
def demoExecutorY : ExecutorAgent := ExecutorAgent.mk_fresh.add_tool demoToolY

/-- A per-step proposal oracle whose decision names the unregistered tool
`z`. -/
def demoOracleZ : DecideFn := fun _ _ _ _ =>
  .ok (Json.dump (.obj [("tool", .str "z"), ("parameters", .obj [])]))

/-- A per-step proposal oracle whose decision is an object lacking the
`tool` key. -/
def demoOracleEmpty : DecideFn := fun _ _ _ _ => .ok (Json.dump (.obj []))

/-- A deterministic proposal function for the Planner. -/
def demoPropose : ProposeFn := fun _ task => .ok ("PLAN for " ++ task)

/-- A proposal function that fails (provider/network failure). -/
def failPropose : ProposeFn := fun _ _ => .error "ProposalCallError"

/-- An empty run context. -/
def emptyCtx : Ctx := ⟨none, none, []⟩

/-! # Theorems -/

/-! ## Dictionary lemmas -/

@[simp] theorem dlookup_nil {κ : Type u} {α : Type v} [DecidableEq κ] (k : κ) :
    dlookup ([] : List (κ × α)) k = none := rfl

@[simp] theorem dlookup_cons {κ : Type u} {α : Type v} [DecidableEq κ]
    (k' k : κ) (v : α) (rest : List (κ × α)) :
    dlookup ((k', v) :: rest) k = if k' = k then some v else dlookup rest k := rfl

theorem dlookup_dinsert {κ : Type u} {α : Type v} [DecidableEq κ]
    (m : List (κ × α)) (k : κ) (v : α) : dlookup (dinsert m k v) k = some v := by
  induction m with
  | nil => simp [dinsert]
  | cons hd tl ih =>
    obtain ⟨k', v'⟩ := hd
    by_cases h : k' = k <;> simp [dinsert, h, ih]

theorem dlookup_dinsert_ne {κ : Type u} {α : Type v} [DecidableEq κ]
    (m : List (κ × α)) (k k' : κ) (v : α) (h : k ≠ k') :
    dlookup (dinsert m k v) k' = dlookup m k' := by
  induction m with
  | nil => simp [dinsert, h]
  | cons hd tl ih =>
    obtain ⟨k₀, v₀⟩ := hd
    by_cases h0 : k₀ = k <;> by_cases h1 : k₀ = k' <;>
      simp_all [dinsert]

theorem dlookup_dinsert_isSome {κ : Type u} {α : Type v} [DecidableEq κ]
    (m : List (κ × α)) (k k' : κ) (v : α) (h : (dlookup m k').isSome) :
    (dlookup (dinsert m k v) k').isSome := by
  by_cases hk : k = k'
  · subst hk; simp [dlookup_dinsert]
  · rwa [dlookup_dinsert_ne m k k' v hk]

/-! ## Structure of the execution loop -/

/-- The step loop processes a list decomposition `l1 ++ l2` by running `l1`
first and touching `l2` only when `l1` raised no exception: steps run
strictly in list order and an abort is total over the remaining suffix. -/
theorem execLoop_append (d : DecideFn) (tools : List (String × Tool)) (ctx : Ctx)
    (l1 l2 : List Json) (cache : List (Json × Json)) (msgs : List Message) :
    execLoop d tools ctx cache msgs (l1 ++ l2) =
      match execLoop d tools ctx cache msgs l1 with
      | ⟨c, m, some e⟩ => ⟨c, m, some e⟩
      | ⟨c, m, none⟩ => execLoop d tools ctx c m l2 := by
  induction l1 generalizing cache msgs with
  | nil => simp [execLoop]
  | cons step rest ih =>
    simp only [List.cons_append, execLoop]
    cases h1 : jget step "id" with
    | error e => simp [h1]
    | ok sid =>
      cases h2 : jgetD step "dependencies" (.arr []) with
      | error e => simp [h1, h2]
      | ok depsJ =>
        cases h3 : iterElems depsJ with
        | error e => simp [h1, h2, h3]
        | ok deps =>
          cases h4 : checkDeps cache deps with
          | some e => simp [h1, h2, h3, h4]
          | none =>
            cases h5 : ExecutorAgent.execute_step d ⟨tools, cache⟩ step ctx with
            | error e => simp [h1, h2, h3, h4, h5]
            | ok result =>
              by_cases hh : sid.hashable = true
              · simp [h1, h2, h3, h4, h5, hh, ih]
              · simp [h1, h2, h3, h4, h5, hh]

/-- The loop never removes an entry from the step-result cache. -/
theorem execLoop_cache_mono (d : DecideFn) (tools : List (String × Tool)) (ctx : Ctx)
    (steps : List Json) :
    ∀ (cache : List (Json × Json)) (msgs : List Message) (k : Json),
      (dlookup cache k).isSome →
      (dlookup (execLoop d tools ctx cache msgs steps).cache k).isSome := by
  induction steps with
  | nil => intro cache msgs k h; simpa [execLoop] using h
  | cons step rest ih =>
    intro cache msgs k h
    simp only [execLoop]
    cases h1 : jget step "id" with
    | error e => simpa [h1] using h
    | ok sid =>
      cases h2 : jgetD step "dependencies" (.arr []) with
      | error e => simpa [h1, h2] using h
      | ok depsJ =>
        cases h3 : iterElems depsJ with
        | error e => simpa [h1, h2, h3] using h
        | ok deps =>
          cases h4 : checkDeps cache deps with
          | some e => simpa [h1, h2, h3, h4] using h
          | none =>
            cases h5 : ExecutorAgent.execute_step d ⟨tools, cache⟩ step ctx with
            | error e => simpa [h1, h2, h3, h4, h5] using h
            | ok result =>
              by_cases hh : sid.hashable = true
              · simp only [h1, h2, h3, h4, h5, hh, if_true]
                exact ih _ _ _ (dlookup_dinsert_isSome _ _ _ _ h)
              · simpa [h1, h2, h3, h4, h5, hh] using h

/-- Closed form of `ExecutorAgent.process` once the plan text is present,
truthy, and deserializes with an iterable `steps` value: the outcome is
determined by the step loop, and `execution_results` is assigned only in
the no-exception branch. -/
theorem executor_process_of_parse (d : DecideFn) (ex : ExecutorAgent)
    (st : AgentState) (p : String) (pd stepsJ : Json) (steps : List Json)
    (hp : st.context.plan = some p) (hne : p ≠ "")
    (hl : json_loads p = .ok pd)
    (hs : jgetD pd "steps" (.arr []) = .ok stepsJ)
    (hi : iterElems stepsJ = .ok steps) :
    ExecutorAgent.process d ex st =
      match execLoop d ex.tools st.context ex.step_results [] steps with
      | ⟨c, m, some e⟩ =>
        ({ ex with step_results := c },
         { st with messages := st.messages ++ m ++ [execErrorMsg e] })
      | ⟨c, m, none⟩ =>
        ({ ex with step_results := c },
         { st with messages := st.messages ++ m,
                   context := { st.context with execution_results := some c } }) := by
  simp only [ExecutorAgent.process, hp, if_neg hne, hl, hs, hi]
  cases hr : execLoop d ex.tools st.context ex.step_results [] steps with
  | mk c m err => cases err <;> simp [hr]

/-- `process` never removes an entry from the step-result cache, whatever
path it takes. -/
theorem process_cache_mono (d : DecideFn) (ex : ExecutorAgent) (st : AgentState)
    (k : Json) (h : (dlookup ex.step_results k).isSome) :
    (dlookup (ExecutorAgent.process d ex st).1.step_results k).isSome := by
  unfold ExecutorAgent.process
  cases hp : st.context.plan with
  | none => simpa using h
  | some p =>
    by_cases hne : p = ""
    · simpa [hne] using h
    · simp only [if_neg hne]
      cases hl : json_loads p with
      | error e => simpa using h
      | ok pd =>
        cases hs : jgetD pd "steps" (.arr []) with
        | error e => simpa [hs] using h
        | ok stepsJ =>
          cases hi : iterElems stepsJ with
          | error e => simpa [hs, hi] using h
          | ok steps =>
            simp only [hs, hi]
            cases hr : execLoop d ex.tools st.context ex.step_results [] steps with
            | mk c m err =>
              have := execLoop_cache_mono d ex.tools st.context steps ex.step_results [] k h
              rw [hr] at this
              cases err <;> simpa using this

/-! ## Structure of the Graph Driver's tool wiring -/

theorem create_graph_cons (p : PlannerAgent) (ex : ExecutorAgent) (t : Tool) (ts : List Tool) :
    create_agent_graph_with_tools p ex (t :: ts) =
      create_agent_graph_with_tools (p.add_tool t) (ex.add_tool t) ts := rfl

theorem create_graph_planner_tools (p : PlannerAgent) (ex : ExecutorAgent) (ts : List Tool) :
    (create_agent_graph_with_tools p ex ts).1.tools = p.tools ++ ts := by
  induction ts generalizing p ex with
  | nil => simp [create_agent_graph_with_tools]
  | cons t rest ih =>
    rw [create_graph_cons, ih]
    simp [PlannerAgent.add_tool]

theorem create_graph_executor_mono (p : PlannerAgent) (ex : ExecutorAgent)
    (ts : List Tool) (k : String) (h : (dlookup ex.tools k).isSome) :
    (dlookup (create_agent_graph_with_tools p ex ts).2.tools k).isSome := by
  induction ts generalizing p ex with
  | nil => simpa [create_agent_graph_with_tools] using h
  | cons t rest ih =>
    rw [create_graph_cons]
    exact ih _ _ (by simpa [ExecutorAgent.add_tool] using
      dlookup_dinsert_isSome ex.tools t.name k t h)

theorem create_graph_executor_mem (p : PlannerAgent) (ex : ExecutorAgent)
    (ts : List Tool) (t : Tool) (h : t ∈ ts) :
    (dlookup (create_agent_graph_with_tools p ex ts).2.tools t.name).isSome := by
  induction ts generalizing p ex with
  | nil => cases h
  | cons hd rest ih =>
    rw [create_graph_cons]
    rcases List.mem_cons.mp h with he | hm
    · subst he
      exact create_graph_executor_mono _ _ rest t.name
        (by simp [ExecutorAgent.add_tool, dlookup_dinsert])
    · exact ih _ _ hm

/-! ## Claims -/

/-- C1, counterexample.  The claim says that after `Executor.process` aborts
partway, `context.execution_results` is present and holds the results of the
steps that succeeded — in particular `{s1: r1}` for the plan
`[s1 (no deps), s2 (dep on an id absent from the cache)]` on a fresh
Executor.  In the code the assignment
`state.context["execution_results"] = self._step_results` sits inside the
`try`, *after* the loop, so an abort skips it: on exactly that plan, `s1`'s
result is cached in the executor, yet `execution_results` is absent. -/
theorem results_not_surfaced_on_abort :
    json_loads badDepPlan = .ok (planJson badDepSteps) ∧
    (ExecutorAgent.process demoOracle demoExecutor
        (baseState (some badDepPlan))).1.step_results =
      [(.str "s1", .str "result-s1")] ∧
    (ExecutorAgent.process demoOracle demoExecutor
        (baseState (some badDepPlan))).2.context.execution_results = none := by
  decide

/-- C1, amended.  For every state whose context holds a plan that
deserializes to an iterable steps value, `execution_results` after
`Executor.process` holds the final step-result cache snapshot *only when the
step loop completed without an exception*; when the loop aborts partway,
`execution_results` keeps its previous value (absent on a fresh context),
even though the results cached before the abort persist in the Executor's
own cache (second conjunct). -/
theorem execution_results_only_on_completion (d : DecideFn) (ex : ExecutorAgent)
    (st : AgentState) (p : String) (pd stepsJ : Json) (steps : List Json)
    (hp : st.context.plan = some p) (hne : p ≠ "") (hl : json_loads p = .ok pd)
    (hs : jgetD pd "steps" (.arr []) = .ok stepsJ) (hi : iterElems stepsJ = .ok steps) :
    (ExecutorAgent.process d ex st).2.context.execution_results =
      (match (execLoop d ex.tools st.context ex.step_results [] steps).err with
       | none => some (execLoop d ex.tools st.context ex.step_results [] steps).cache
       | some _ => st.context.execution_results) ∧
    (ExecutorAgent.process d ex st).1.step_results =
      (execLoop d ex.tools st.context ex.step_results [] steps).cache := by
  rw [executor_process_of_parse d ex st p pd stepsJ steps hp hne hl hs hi]
  cases hr : execLoop d ex.tools st.context ex.step_results [] steps with
  | mk c m err => cases err <;> simp [hr]

/-- C1, witness for the amended theorem at the aborting two-step plan. -/
theorem execution_results_only_on_completion_witness :
    ((ExecutorAgent.process demoOracle demoExecutor
        (baseState (some badDepPlan))).2.context.execution_results =
      (match (execLoop demoOracle demoExecutor.tools (baseState (some badDepPlan)).context
                demoExecutor.step_results [] badDepSteps).err with
       | none => some (execLoop demoOracle demoExecutor.tools
                  (baseState (some badDepPlan)).context
                  demoExecutor.step_results [] badDepSteps).cache
       | some _ => (baseState (some badDepPlan)).context.execution_results)) ∧
    (ExecutorAgent.process demoOracle demoExecutor
        (baseState (some badDepPlan))).1.step_results =
      (execLoop demoOracle demoExecutor.tools (baseState (some badDepPlan)).context
        demoExecutor.step_results [] badDepSteps).cache :=
  execution_results_only_on_completion demoOracle demoExecutor (baseState (some badDepPlan))
    badDepPlan (planJson badDepSteps) (.arr badDepSteps) badDepSteps
    rfl (by decide) (by decide) (by decide) rfl

/-- C2.  Error-propagation asymmetry: when the external proposal call inside
`Planner.process` fails, the failure propagates uncaught to the caller
(first conjunct); every exception raised by the Executor's step loop is
caught at the Executor boundary and converted into exactly one appended
assistant error message, with `process` returning normally — cache updates
made before the abort persist and the context is left untouched (second
conjunct). -/
theorem error_propagation_asymmetry :
    (∀ (propose : ProposeFn) (p : PlannerAgent) (st : AgentState) (m : Message) (e : String),
      st.messages.getLast? = some m →
      propose (planner_tools_listing p.tools) m.content = .error e →
      PlannerAgent.process propose p st = .error e) ∧
    (∀ (d : DecideFn) (ex : ExecutorAgent) (st : AgentState)
       (p : String) (pd stepsJ : Json) (steps : List Json) (e : String),
      st.context.plan = some p → p ≠ "" → json_loads p = .ok pd →
      jgetD pd "steps" (.arr []) = .ok stepsJ → iterElems stepsJ = .ok steps →
      (execLoop d ex.tools st.context ex.step_results [] steps).err = some e →
      ExecutorAgent.process d ex st =
        ({ ex with step_results :=
             (execLoop d ex.tools st.context ex.step_results [] steps).cache },
         { st with messages := st.messages ++
             (execLoop d ex.tools st.context ex.step_results [] steps).msgs ++
             [execErrorMsg e] })) := by
  constructor
  · intro propose p st m e hm herr
    simp [PlannerAgent.process, hm, herr]
  · intro d ex st p pd stepsJ steps e hp hne hl hs hi herr
    rw [executor_process_of_parse d ex st p pd stepsJ steps hp hne hl hs hi]
    cases hr : execLoop d ex.tools st.context ex.step_results [] steps with
    | mk c m err =>
      rw [hr] at herr
      cases err with
      | none => simp at herr
      | some e' =>
        simp at herr
        subst herr
        simp [hr]

/-- C2, witness: a failing proposal function aborts the Planner loudly,
while the missing-dependency plan makes the Executor return normally with a
single appended error message. -/
theorem error_propagation_asymmetry_witness :
    PlannerAgent.process failPropose ⟨[demoTool]⟩ (baseState none) =
      .error "ProposalCallError" ∧
    ExecutorAgent.process demoOracle demoExecutor (baseState (some badDepPlan)) =
      ({ demoExecutor with step_results :=
           (execLoop demoOracle demoExecutor.tools (baseState (some badDepPlan)).context
             demoExecutor.step_results [] badDepSteps).cache },
       { baseState (some badDepPlan) with messages :=
           (baseState (some badDepPlan)).messages ++
           (execLoop demoOracle demoExecutor.tools (baseState (some badDepPlan)).context
             demoExecutor.step_results [] badDepSteps).msgs ++
           [execErrorMsg ("Dependency " ++ "missing" ++ " not satisfied")] }) :=
  ⟨(error_propagation_asymmetry).1 failPropose ⟨[demoTool]⟩ (baseState none)
     ⟨"user", "do the task"⟩ "ProposalCallError" rfl rfl,
   (error_propagation_asymmetry).2 demoOracle demoExecutor (baseState (some badDepPlan))
     badDepPlan (planJson badDepSteps) (.arr badDepSteps) badDepSteps
     ("Dependency " ++ "missing" ++ " not satisfied")
     rfl (by decide) (by decide) (by decide) rfl (by decide)⟩

/-- C3.  The Router is a pure function of the context, evaluated in a fixed
priority order: a present `plan` routes to the Executor regardless of any
other key (check (1) shadows check (2)); otherwise present
`execution_results` stops at Terminal; otherwise the Planner runs. -/
theorem router_priority_order (context : Ctx) :
    (context.plan.isSome → should_continue context = (true, .executor)) ∧
    (context.plan = none → context.execution_results.isSome →
      should_continue context = (false, .terminal)) ∧
    (context.plan = none → context.execution_results = none →
      should_continue context = (true, .planner)) := by
  refine ⟨fun h => ?_, fun h1 h2 => ?_, fun h1 h2 => ?_⟩ <;>
    simp [should_continue, *]

/-- C3, witness: the first context carries *both* `plan` and
`execution_results` and still routes to the Executor. -/
theorem router_priority_order_witness :
    should_continue ⟨some "P", some [], [("k", .null)]⟩ = (true, .executor) ∧
    should_continue ⟨none, some [], []⟩ = (false, .terminal) ∧
    should_continue ⟨none, none, []⟩ = (true, .planner) :=
  ⟨(router_priority_order ⟨some "P", some [], [("k", .null)]⟩).1 (by decide),
   (router_priority_order ⟨none, some [], []⟩).2.1 rfl (by decide),
   (router_priority_order ⟨none, none, []⟩).2.2 rfl rfl⟩

/-- C4.  The Executor walks steps strictly in list order with a total abort:
running `l1 ++ l2` runs `l1` first and touches `l2` only when `l1` raised
nothing (first conjunct — no skipping ahead, no reordering, nothing after an
abort).  For the plan `[s1 (no deps), s2 (deps = {s1})]` on a fresh
Executor, both steps execute, the appended messages show `s1` strictly
before `s2`, and `execution_results` maps both ids (second conjunct). -/
theorem executor_strict_list_order :
    (∀ (d : DecideFn) (tools : List (String × Tool)) (ctx : Ctx)
       (l1 l2 : List Json) (cache : List (Json × Json)) (msgs : List Message),
      execLoop d tools ctx cache msgs (l1 ++ l2) =
        match execLoop d tools ctx cache msgs l1 with
        | ⟨c, m, some e⟩ => ⟨c, m, some e⟩
        | ⟨c, m, none⟩ => execLoop d tools ctx c m l2) ∧
    ((ExecutorAgent.process demoOracle demoExecutor
        (baseState (some goodPlan))).1.step_results =
        [(.str "s1", .str "result-s1"), (.str "s2", .str "result-s2")] ∧
     (ExecutorAgent.process demoOracle demoExecutor
        (baseState (some goodPlan))).2.messages =
        [⟨"user", "do the task"⟩, executedStepMsg (.str "s1") (.str "result-s1"),
         executedStepMsg (.str "s2") (.str "result-s2")] ∧
     (ExecutorAgent.process demoOracle demoExecutor
        (baseState (some goodPlan))).2.context.execution_results =
        some [(.str "s1", .str "result-s1"), (.str "s2", .str "result-s2")]) :=
  ⟨execLoop_append, by decide⟩

/-- C5.  The step-result cache is owned by the Executor value and is never
cleared by `process` (first conjunct: every cached key survives any call).
Second conjunct: after a first run caches `s1` and `s2`, a second `process`
call on the same Executor with a different plan whose step `t1` depends on
`s1` passes the dependency check using the stale first-run result. -/
theorem executor_cache_survives_runs :
    (∀ (d : DecideFn) (ex : ExecutorAgent) (st : AgentState) (k : Json),
      (dlookup ex.step_results k).isSome →
      (dlookup (ExecutorAgent.process d ex st).1.step_results k).isSome) ∧
    ((ExecutorAgent.process demoOracle
        (ExecutorAgent.process demoOracle demoExecutor (baseState (some goodPlan))).1
        (baseState (some stalePlan))).1.step_results =
      [(.str "s1", .str "result-s1"), (.str "s2", .str "result-s2"),
       (.str "t1", .str "result-t1")] ∧
     (ExecutorAgent.process demoOracle
        (ExecutorAgent.process demoOracle demoExecutor (baseState (some goodPlan))).1
        (baseState (some stalePlan))).2.context.execution_results =
      some [(.str "s1", .str "result-s1"), (.str "s2", .str "result-s2"),
            (.str "t1", .str "result-t1")]) :=
  ⟨process_cache_mono, by decide⟩

/-- C5, witness: the stale first-run result for `s1` is still present after
the second run. -/
theorem executor_cache_survives_runs_witness :
    (dlookup (ExecutorAgent.process demoOracle
        (ExecutorAgent.process demoOracle demoExecutor (baseState (some goodPlan))).1
        (baseState (some stalePlan))).1.step_results (.str "s1")).isSome :=
  (executor_cache_survives_runs).1 demoOracle
    (ExecutorAgent.process demoOracle demoExecutor (baseState (some goodPlan))).1
    (baseState (some stalePlan)) (.str "s1") (by decide)

/-- C6.  Planner contract: an empty messages list is a no-op (the state
comes back unchanged, no error); otherwise the last message's content is the
task, the proposal's raw text is stored verbatim as `context.plan`, exactly
one assistant message is appended, and the rest of the state (memory, other
context keys) is unchanged. -/
theorem planner_process_contract (propose : ProposeFn) (p : PlannerAgent)
    (state : AgentState) :
    (state.messages = [] → PlannerAgent.process propose p state = .ok state) ∧
    (∀ (m : Message) (content : String), state.messages.getLast? = some m →
      propose (planner_tools_listing p.tools) m.content = .ok content →
      PlannerAgent.process propose p state =
        .ok { state with
              context := { state.context with plan := some content },
              messages := state.messages ++
                [⟨"assistant", "Created execution plan:\n" ++ content⟩] }) := by
  constructor
  · intro h; simp [PlannerAgent.process, h]
  · intro m content hm hprop
    simp [PlannerAgent.process, hm, hprop]

/-- C6, witness: the empty-messages no-op and a one-message planning run. -/
theorem planner_process_contract_witness :
    PlannerAgent.process demoPropose ⟨[demoTool]⟩ ⟨[], [], emptyCtx⟩ =
      .ok ⟨[], [], emptyCtx⟩ ∧
    PlannerAgent.process demoPropose ⟨[demoTool]⟩ (baseState none) =
      .ok { baseState none with
            context := { (baseState none).context with
              plan := some "PLAN for do the task" },
            messages := (baseState none).messages ++
              [⟨"assistant", "Created execution plan:\n" ++ "PLAN for do the task"⟩] } :=
  ⟨(planner_process_contract demoPropose ⟨[demoTool]⟩ ⟨[], [], emptyCtx⟩).1 rfl,
   (planner_process_contract demoPropose ⟨[demoTool]⟩ (baseState none)).2
     ⟨"user", "do the task"⟩ "PLAN for do the task" rfl rfl⟩

/-- C7, counterexample.  The claim says the capability invoked is the one
registered under the step's own `tool` field, and that an unregistered
`step.tool` raises.  In the code `_execute_step` resolves
`execution_plan["tool"]` — the tool named by the proposal oracle's decision
— and never consults `step.tool`: with a registry holding only `y`, a step
whose `tool` field is the unregistered name `x` executes successfully via
`y` when the decision names `y`, and no error is raised. -/
theorem step_tool_field_ignored :
    dlookup demoExecutorY.tools "x" = none ∧
    jget (mkStep "s1" "x" []) "tool" = .ok (.str "x") ∧
    (ExecutorAgent.process demoOracleY demoExecutorY
        (baseState (some stepToolXPlan))).2.context.execution_results =
      some [(.str "s1", .str "result-y")] ∧
    (ExecutorAgent.process demoOracleY demoExecutorY
        (baseState (some stepToolXPlan))).2.messages =
      [⟨"user", "do the task"⟩, executedStepMsg (.str "s1") (.str "result-y")] :=
  ⟨rfl, by decide, by decide, by decide⟩

/-- C7, amended.  The capability the Executor invokes for a step is the one
registered under the tool name in the parsed per-step decision
(`execution_plan["tool"]`), which need not be `step.tool`; if the decision's
name is unregistered a `ValueError` (`Tool ... not found`) is raised
(conjuncts 1–2), and that exception stops the step loop before any later
step, leaving `execution_results` unset (closed conjunct 3). -/
theorem decision_tool_resolution (d : DecideFn) (ex : ExecutorAgent) (step : Json)
    (ctx : Ctx) (content : String) (ep : Json) (n : String)
    (ho : d ex.tools ex.step_results step ctx = .ok content)
    (hj : json_loads content = .ok ep)
    (ht : jget ep "tool" = .ok (.str n)) :
    (dlookup ex.tools n = none →
      ExecutorAgent.execute_step d ex step ctx = .error ("Tool " ++ n ++ " not found")) ∧
    (∀ (tool : Tool) (kvs : List (String × Json)) (r : Json),
      dlookup ex.tools n = some tool →
      jget ep "parameters" = .ok (.obj kvs) → tool.run kvs = .ok r →
      ExecutorAgent.execute_step d ex step ctx = .ok r) ∧
    ((ExecutorAgent.process demoOracleZ demoExecutor (baseState (some goodPlan))).2.messages =
        [⟨"user", "do the task"⟩, execErrorMsg ("Tool " ++ "z" ++ " not found")] ∧
     (ExecutorAgent.process demoOracleZ demoExecutor
        (baseState (some goodPlan))).1.step_results = [] ∧
     (ExecutorAgent.process demoOracleZ demoExecutor
        (baseState (some goodPlan))).2.context.execution_results = none) := by
  refine ⟨?_, ?_, by decide⟩
  · intro hnone
    simp [ExecutorAgent.execute_step, ho, hj, ht, hnone, Json.display]
  · intro tool kvs r htool hparams hrun
    simp [ExecutorAgent.execute_step, ho, hj, ht, htool, hparams, hrun]

/-- C7, witness for the amended theorem: the decision naming registered `y`
executes `y` even though `step.tool` is the unregistered `x`; a decision
naming unregistered `z` yields the `Tool z not found` error. -/
theorem decision_tool_resolution_witness :
    ExecutorAgent.execute_step demoOracleY demoExecutorY (mkStep "s1" "x" []) emptyCtx =
      .ok (.str "result-y") ∧
    ExecutorAgent.execute_step demoOracleZ demoExecutor (mkStep "s1" "search" []) emptyCtx =
      .error ("Tool " ++ "z" ++ " not found") :=
  ⟨(decision_tool_resolution demoOracleY demoExecutorY (mkStep "s1" "x" []) emptyCtx
      (Json.dump (.obj [("tool", .str "y"), ("parameters", .obj [])]))
      (.obj [("tool", .str "y"), ("parameters", .obj [])]) "y"
      rfl (by decide) (by decide)).2.1 demoToolY [] (.str "result-y") rfl (by decide) rfl,
   (decision_tool_resolution demoOracleZ demoExecutor (mkStep "s1" "search" []) emptyCtx
      (Json.dump (.obj [("tool", .str "z"), ("parameters", .obj [])]))
      (.obj [("tool", .str "z"), ("parameters", .obj [])]) "z"
      rfl (by decide) (by decide)).1 rfl⟩

/-- C8.  Tool registration is last-wins for the name-keyed registry the
Executor resolves against (first conjunct), and a tool registered once
through the Graph Driver's wiring is visible both as a line of the
Planner's tool listing and to the Executor's resolution (second
conjunct). -/
theorem tool_registration_last_wins_shared :
    (∀ (ex : ExecutorAgent) (t1 t2 : Tool), t2.name = t1.name →
      dlookup ((ex.add_tool t1).add_tool t2).tools t1.name = some t2) ∧
    (∀ (p : PlannerAgent) (ex : ExecutorAgent) (ts : List Tool) (t : Tool), t ∈ ts →
      ("- " ++ t.name ++ ": " ++ t.description) ∈
        planner_tool_lines (create_agent_graph_with_tools p ex ts).1.tools ∧
      (dlookup (create_agent_graph_with_tools p ex ts).2.tools t.name).isSome) := by
  constructor
  · intro ex t1 t2 h
    simp only [ExecutorAgent.add_tool, h]
    exact dlookup_dinsert _ _ _
  · intro p ex ts t h
    refine ⟨?_, create_graph_executor_mem p ex ts t h⟩
    rw [create_graph_planner_tools]
    exact List.mem_map_of_mem _ (List.mem_append_right _ h)

/-- C8, witness: registering `demoTool` then `demoTool2` under the same name
leaves only `demoTool2` resolvable; wiring `[demoTool]` through the Graph
Driver setup makes it visible to both agents. -/
theorem tool_registration_last_wins_shared_witness :
    dlookup ((ExecutorAgent.mk_fresh.add_tool demoTool).add_tool demoTool2).tools
      demoTool.name = some demoTool2 ∧
    (("- " ++ demoTool.name ++ ": " ++ demoTool.description) ∈
       planner_tool_lines
         (create_agent_graph_with_tools ⟨[]⟩ ExecutorAgent.mk_fresh [demoTool]).1.tools ∧
     (dlookup (create_agent_graph_with_tools ⟨[]⟩ ExecutorAgent.mk_fresh
         [demoTool]).2.tools demoTool.name).isSome) :=
  ⟨(tool_registration_last_wins_shared).1 ExecutorAgent.mk_fresh demoTool demoTool2 rfl,
   (tool_registration_last_wins_shared).2 ⟨[]⟩ ExecutorAgent.mk_fresh [demoTool]
     demoTool (by simp)⟩

/-- C9, counterexample.  The claim says a plan that parses as a JSON object
lacking `steps` makes the Executor raise at first use of that key.  The code
reads `plan_data.get("steps", [])`, so the plan text `{}` yields an empty
step list: `process` completes silently — no message is appended, no error
is raised, and `execution_results` is set to the (empty) cache snapshot. -/
theorem no_steps_key_completes_silently :
    json_loads "\x7b\x7d" = .ok (.obj []) ∧
    (ExecutorAgent.process demoOracle demoExecutor
        (baseState (some "\x7b\x7d"))).2.messages = (baseState (some "\x7b\x7d")).messages ∧
    (ExecutorAgent.process demoOracle demoExecutor
        (baseState (some "\x7b\x7d"))).2.context.execution_results = some [] ∧
    (ExecutorAgent.process demoOracle demoExecutor
        (baseState (some "\x7b\x7d"))).1.step_results = [] := by
  decide

/-- C9, amended.  A plan object with no `steps` key is treated as an empty
step list: `process` completes normally, appends nothing, and sets
`execution_results` to the current cache snapshot (first conjunct).  Other
absent keys do raise a lookup error at first use: a per-step decision object
lacking `tool` raises a `KeyError` inside `_execute_step` (second
conjunct). -/
theorem no_steps_key_defaults_empty (d : DecideFn) (ex : ExecutorAgent) (st : AgentState)
    (p : String) (kvs : List (String × Json))
    (hp : st.context.plan = some p) (hne : p ≠ "")
    (hl : json_loads p = .ok (.obj kvs)) (hk : dlookup kvs "steps" = none) :
    ExecutorAgent.process d ex st =
      (ex, { st with context :=
        { st.context with execution_results := some ex.step_results } }) ∧
    (∀ (d' : DecideFn) (ex' : ExecutorAgent) (step : Json) (ctx : Ctx)
       (content : String) (kvs' : List (String × Json)),
      d' ex'.tools ex'.step_results step ctx = .ok content →
      json_loads content = .ok (.obj kvs') → dlookup kvs' "tool" = none →
      ExecutorAgent.execute_step d' ex' step ctx = .error ("KeyError: " ++ "tool")) := by
  constructor
  · have hs : jgetD (.obj kvs) "steps" (.arr []) = .ok (.arr []) := by simp [jgetD, hk]
    rw [executor_process_of_parse d ex st p (.obj kvs) (.arr []) [] hp hne hl hs rfl]
    simp [execLoop]
  · intro d' ex' step ctx content kvs' ho hj hk'
    simp [ExecutorAgent.execute_step, ho, hj, jget, hk']

/-- C9, witness for the amended theorem at the plan text `{}` and at a
decision object lacking `tool`. -/
theorem no_steps_key_defaults_empty_witness :
    ExecutorAgent.process demoOracle demoExecutor (baseState (some "\x7b\x7d")) =
      (demoExecutor, { baseState (some "\x7b\x7d") with context :=
        { (baseState (some "\x7b\x7d")).context with
          execution_results := some demoExecutor.step_results } }) ∧
    ExecutorAgent.execute_step demoOracleEmpty demoExecutor (mkStep "s1" "search" [])
      emptyCtx = .error ("KeyError: " ++ "tool") :=
  ⟨(no_steps_key_defaults_empty demoOracle demoExecutor (baseState (some "\x7b\x7d"))
      "\x7b\x7d" [] rfl (by decide) (by decide) rfl).1,
   (no_steps_key_defaults_empty demoOracle demoExecutor (baseState (some "\x7b\x7d"))
      "\x7b\x7d" [] rfl (by decide) (by decide) rfl).2
     demoOracleEmpty demoExecutor (mkStep "s1" "search" []) emptyCtx "\x7b\x7d" []
     rfl (by decide) rfl⟩

/-- C10.  `Executor.process` treats a `plan` key bound to a falsy value (the
empty string) exactly like an absent key: the input state comes back
unchanged — no deserialization, no appended message, no `execution_results`,
and an untouched cache. -/
theorem executor_falsy_plan_noop (d : DecideFn) (ex : ExecutorAgent) (state : AgentState) :
    (state.context.plan = some "" → ExecutorAgent.process d ex state = (ex, state)) ∧
    (state.context.plan = none → ExecutorAgent.process d ex state = (ex, state)) := by
  constructor <;> intro h <;> simp [ExecutorAgent.process, h]

/-- C10, witness at a state whose context maps `plan` to the empty string. -/
theorem executor_falsy_plan_noop_witness :
    ExecutorAgent.process demoOracle demoExecutor (baseState (some "")) =
      (demoExecutor, baseState (some "")) :=
  (executor_falsy_plan_noop demoOracle demoExecutor (baseState (some ""))).1 rfl

end Neura
